import Mathlib

/-!
Shallow embedding of the entry-ledger and weighted-draw core of the
BOTM raffle bot (src/bot.py).  The persistent `tickets` table is a list
of rows keyed by `user_id`; ISO-8601 timestamps compare chronologically,
so they are modelled as natural numbers.  The `random` module is
modelled by an oracle `rand : Nat → Nat` giving the successive values
drawn, with `random.choice(pop)` read as indexing `pop` at
`rand k % pop.length`.  A database I/O failure (an `aiosqlite`
exception) is modelled by an oracle saying which sequential call of a
bulk loop raises.
-/

/-- One row of the `tickets` table: `user_id INTEGER PRIMARY KEY`,
`amount INTEGER NOT NULL DEFAULT 0`, `updated_at TEXT NOT NULL`. -/
structure LedgerRow where
  user_id : Int
  amount : Int
  updated_at : Nat
deriving DecidableEq, Repr

/-- The `tickets` table, as the list of its rows. -/
abbrev Tickets := List LedgerRow

/-- Primary-key discipline of the `tickets` table: `user_id` values are
pairwise distinct. -/
def keysNodup (s : Tickets) : Prop :=
  (s.map (fun r => r.user_id)).Nodup

/-- Embedding of `add_tickets(user_id, delta)` (src/bot.py:113-122):
`INSERT INTO tickets(user_id, amount, updated_at) VALUES(?, ?, ?)
ON CONFLICT(user_id) DO UPDATE SET amount = MAX(0, amount +
excluded.amount), updated_at = excluded.updated_at`.  When a row with
this key exists, its amount is updated to the zero-clamped sum; when no
row exists, the raw `delta` is inserted as the amount. -/
def add_tickets (s : Tickets) (uid delta : Int) (t : Nat) : Tickets :=
  if s.any (fun r => r.user_id == uid) then
    s.map (fun r =>
      if r.user_id == uid then
        { r with amount := max 0 (r.amount + delta), updated_at := t }
      else r)
  else
    s ++ [{ user_id := uid, amount := delta, updated_at := t }]

/-- Embedding of `get_tickets(user_id)` (src/bot.py:131-135):
`SELECT amount FROM tickets WHERE user_id=?`, returning 0 when no row
exists. -/
def get_tickets (s : Tickets) (uid : Int) : Int :=
  match s.find? (fun r => r.user_id == uid) with
  | some r => r.amount
  | none => 0

/-- The `ORDER BY amount DESC, updated_at DESC` ordering used by
`top_tickets`: row `a` may be listed no later than row `b`. -/
def rankBefore (a b : LedgerRow) : Prop :=
  b.amount < a.amount ∨ (a.amount = b.amount ∧ b.updated_at ≤ a.updated_at)

instance : DecidableRel rankBefore := fun a b => by
  unfold rankBefore
  infer_instance

instance : IsTotal LedgerRow rankBefore where
  total a b := by
    unfold rankBefore
    rcases lt_trichotomy a.amount b.amount with h | h | h
    · exact Or.inr (Or.inl h)
    · rcases Nat.le_total b.updated_at a.updated_at with h' | h'
      · exact Or.inl (Or.inr ⟨h, h'⟩)
      · exact Or.inr (Or.inr ⟨h.symm, h'⟩)
    · exact Or.inl (Or.inl h)

instance : IsTrans LedgerRow rankBefore where
  trans a b c hab hbc := by
    unfold rankBefore at *
    rcases hab with hab | ⟨hab, hab'⟩ <;> rcases hbc with hbc | ⟨hbc, hbc'⟩
    · exact Or.inl (hbc.trans hab)
    · exact Or.inl (hbc ▸ hab)
    · exact Or.inl (hab ▸ hbc)
    · exact Or.inr ⟨hab.trans hbc, hbc'.trans hab'⟩

/-- Embedding of `top_tickets(limit)` (src/bot.py:138-147):
`SELECT user_id, amount FROM tickets WHERE amount > 0 ORDER BY amount
DESC, updated_at DESC LIMIT ?`. -/
def top_tickets (s : Tickets) (limit : Nat) : Tickets :=
  ((s.filter (fun r => 0 < r.amount)).insertionSort rankBefore).take limit

/-- Embedding of `all_positive_tickets()` (src/bot.py:150-153):
`SELECT user_id, amount FROM tickets WHERE amount > 0`. -/
def all_positive_tickets (s : Tickets) : List (Int × Int) :=
  (s.filter (fun r => 0 < r.amount)).map (fun r => (r.user_id, r.amount))

/-- Embedding of `total_entries()` (src/bot.py:156-161):
`SELECT COALESCE(SUM(amount), 0) FROM tickets WHERE amount > 0`; the
SUM aggregate accumulates row by row starting from 0. -/
def total_entries (s : Tickets) : Int :=
  (s.filter (fun r => 0 < r.amount)).foldl (fun acc r => acc + r.amount) 0

/-- Embedding of `total_participants()` (src/bot.py:163-167):
`SELECT COUNT(*) FROM tickets WHERE amount > 0`. -/
def total_participants (s : Tickets) : Nat :=
  (s.filter (fun r => 0 < r.amount)).length

/-- Embedding of `set_all_tickets_zero()` (src/bot.py:125-128):
`UPDATE tickets SET amount=0, updated_at=?`. -/
def set_all_tickets_zero (s : Tickets) (t : Nat) : Tickets :=
  s.map (fun r => { r with amount := 0, updated_at := t })

/-- Combined persistent state: the `tickets` table together with the
singleton `meta` row keyed `last_reset_utc` (absent until `init_db` has
inserted it). -/
structure BotDb where
  tickets : Tickets
  last_reset : Option Nat
deriving DecidableEq, Repr

/-- Embedding of `get_last_reset()` (src/bot.py:100-104): returns the
stored `last_reset_utc` value, or the current time when the row is
absent. -/
def get_last_reset (db : BotDb) (now : Nat) : Nat :=
  db.last_reset.getD now

/-- Embedding of `set_last_reset(dt)` (src/bot.py:107-110):
`UPDATE meta SET value=? WHERE key='last_reset_utc'` — an UPDATE, so it
changes the value only when the row already exists. -/
def set_last_reset (db : BotDb) (dt : Nat) : BotDb :=
  { db with last_reset := db.last_reset.map (fun _ => dt) }

/-- Embedding of the `/reset_entries` handler (src/bot.py:515-519):
`set_all_tickets_zero()` at time `t1`, then `set_last_reset(now_utc())`
at the (later) time `t2`. -/
def reset_entries (db : BotDb) (t1 t2 : Nat) : BotDb :=
  set_last_reset { db with tickets := set_all_tickets_zero db.tickets t1 } t2

/-- The user-visible error of `/roll_winner` when nobody holds entries
("No one has entries yet — can't roll a winner."). -/
inductive DrawError where
  | emptyPool
deriving DecidableEq, Repr

/-- The weighted population built by `roll_winner` (src/bot.py:533-535):
each `(uid, amt)` row contributes `amt` copies of `uid`
(`population.extend([uid] * int(amt))`). -/
def population (rows : List (Int × Int)) : List Int :=
  rows.flatMap (fun p => List.replicate p.2.toNat p.1)

/-- Embedding of the `/roll_winner` handler (src/bot.py:525-554): fetch
the positive rows; if none, stop with the empty-pool message; otherwise
build the weighted population, draw `winner_id = random.choice(population)`
(the 0th random value), then run the 8-step cosmetic reveal loop, each
step drawing a fresh `candidate = random.choice(population)` (random
values 1..8), and finally announce `winner_id`.  The result is the
announced winner together with the revealed candidate sequence. -/
def roll_winner (s : Tickets) (rand : Nat → Nat) :
    Except DrawError (Int × List Int) :=
  let rows := all_positive_tickets s
  if rows.isEmpty then
    .error .emptyPool
  else
    let pop := population rows
    let winner_id := pop.getD (rand 0 % pop.length) 0
    let reveals := (List.range 8).map (fun i => pop.getD (rand (i + 1) % pop.length) 0)
    .ok (winner_id, reveals)

/-- First-occurrence deduplication loop shared by `give_bulk`
(src/bot.py:374-379) and `remove_bulk` (src/bot.py:430-435): walk the
list keeping a `seen` set, appending each id not seen before. -/
def dedupSeen : List Int → List Int → List Int
  | _, [] => []
  | seen, u :: us =>
    if u ∈ seen then dedupSeen seen us
    else u :: dedupSeen (u :: seen) us

/-- `unique_users` as computed from the supplied user list, starting
with an empty `seen` set. -/
def dedupFirst (l : List Int) : List Int :=
  dedupSeen [] l

/-- The sequential bulk loop (src/bot.py:381-383): one `add_tickets`
call per deduplicated user, in order.  `ioErr n` says whether the n-th
`add_tickets` call raises a database error; a raise aborts the remaining
iterations while every change already committed persists.  The flag in
the result records whether the loop ran to completion. -/
def bulk_loop (delta : Int) (t : Nat) (ioErr : Nat → Bool) :
    Tickets → List Int → Nat → Tickets × Bool
  | s, [], _ => (s, true)
  | s, u :: us, n =>
    if ioErr n then (s, false)
    else bulk_loop delta t ioErr (add_tickets s u delta t) us (n + 1)

/-- Embedding of the `give_bulk` handler (src/bot.py:357-394):
deduplicate the users, run the sequential loop of `add_tickets` calls,
and send the single public summary message (modelled by the list of
mentioned members) only if the whole loop finished; an exception aborts
the handler before the message, so no summary of any kind is produced. -/
def give_bulk (s : Tickets) (users : List Int) (delta : Int) (t : Nat)
    (ioErr : Nat → Bool) : Tickets × Option (List Int) :=
  let uniq := dedupFirst users
  let r := bulk_loop delta t ioErr s uniq 0
  (r.1, if r.2 then some uniq else none)

/-! Helper lemmas shared by the claim theorems. -/

/-- The SUM fold equals the list sum of the amounts, for any starting
accumulator. -/
theorem foldl_add_amount (l : List LedgerRow) (a : Int) :
    l.foldl (fun acc r => acc + r.amount) a =
      a + (l.map (fun r => r.amount)).sum := by
  induction l generalizing a with
  | nil => simp
  | cons x xs ih => simp [ih, add_assoc]

/-- Every pair returned by `all_positive_tickets` has a positive amount. -/
theorem mem_all_positive_pos (s : Tickets) (p : Int × Int)
    (hp : p ∈ all_positive_tickets s) : 0 < p.2 := by
  unfold all_positive_tickets at hp
  obtain ⟨r, hr, rfl⟩ := List.mem_map.mp hp
  simpa using (List.mem_filter.mp hr).2

/-- The positive-balance total is never negative. -/
theorem total_entries_nonneg (s : Tickets) : 0 ≤ total_entries s := by
  unfold total_entries
  rw [foldl_add_amount]
  have : 0 ≤ ((s.filter (fun r => 0 < r.amount)).map (fun r => r.amount)).sum := by
    apply List.sum_nonneg
    intro x hx
    obtain ⟨r, hr, rfl⟩ := List.mem_map.mp hx
    exact le_of_lt (by simpa using (List.mem_filter.mp hr).2)
  simpa using this

/-- C1 (code_bug evidence).  The spec claims every `applyDelta` call
stores `max(0, prev + delta)`, "including when the first-ever call for
an identity has a negative delta".  Evaluating the embedded
`add_tickets` shows the insert path stores the raw delta: the first-ever
call for identity 7 with delta -5 leaves a stored balance of -5, a
negative value, while a call on an already-existing row does clamp
(balance 10, delta -999 yields 0). -/
theorem add_tickets_first_call_negative :
    get_tickets (add_tickets [] 7 (-5) 0) 7 = -5 ∧
    get_tickets (add_tickets [⟨7, 10, 0⟩] 7 (-999) 1) 7 = 0 := by
  decide

/-- C4: drawing on a store with no positive balance always signals the
empty-pool condition and never returns a winner. -/
theorem roll_winner_empty_pool (s : Tickets) (rand : Nat → Nat)
    (h : ∀ r ∈ s, r.amount ≤ 0) :
    roll_winner s rand = .error .emptyPool := by
  have h0 : s.filter (fun r => 0 < r.amount) = [] := by
    rw [List.filter_eq_nil_iff]
    intro a ha
    simpa using not_lt.mpr (h a ha)
  simp [roll_winner, all_positive_tickets, h0]

/-- Closed instance of the empty-pool theorem: a store whose single row
holds zero entries. -/
theorem roll_winner_empty_pool_witness :
    roll_winner [⟨1, 0, 5⟩] (fun _ => 0) = .error .emptyPool :=
  roll_winner_empty_pool [⟨1, 0, 5⟩] (fun _ => 0) (by decide)

/-- C7: `top_tickets` returns rows sorted by amount descending with ties
broken by `updated_at` descending, at most `limit` of them, all with
positive amount. -/
theorem top_tickets_ordered (s : Tickets) (k : Nat) :
    List.Sorted rankBefore (top_tickets s k) ∧
    (top_tickets s k).length ≤ k ∧
    ∀ r ∈ top_tickets s k, 0 < r.amount := by
  refine ⟨?_, ?_, ?_⟩
  · exact List.Pairwise.sublist (List.take_sublist _ _)
      (List.sorted_insertionSort rankBefore _)
  · exact List.length_take_le _ _
  · intro r hr
    have hr' : r ∈ (s.filter (fun x => 0 < x.amount)).insertionSort rankBefore :=
      List.Sublist.mem hr (List.take_sublist _ _)
    have hmem : r ∈ s.filter (fun x => 0 < x.amount) :=
      (List.perm_insertionSort rankBefore _).mem_iff.mp hr'
    simpa using (List.mem_filter.mp hmem).2

/-- C8: the pool total equals the sum of the balances returned by
`all_positive_tickets`, and the participant count equals the number of
rows it returns. -/
theorem totals_from_positive_rows (s : Tickets) :
    total_entries s = ((all_positive_tickets s).map Prod.snd).sum ∧
    total_participants s = (all_positive_tickets s).length := by
  constructor
  · unfold total_entries all_positive_tickets
    rw [List.map_map, foldl_add_amount]
    simp [Function.comp_def]
  · simp [total_participants, all_positive_tickets]

/-- C10: a row whose stored amount is zero or negative is invisible to
every aggregate and draw-facing read — the leaderboard, the draw
population source, the pool total and the participant count are the same
with or without it — while `get_tickets` still observes the stored
(possibly negative) amount. -/
theorem nonpositive_row_invisible (s : Tickets) (k : Nat) (r : LedgerRow)
    (h : r.amount ≤ 0) :
    top_tickets (r :: s) k = top_tickets s k ∧
    all_positive_tickets (r :: s) = all_positive_tickets s ∧
    total_entries (r :: s) = total_entries s ∧
    total_participants (r :: s) = total_participants s ∧
    get_tickets (r :: s) r.user_id = r.amount := by
  have hf : (r :: s).filter (fun x => 0 < x.amount) =
      s.filter (fun x => 0 < x.amount) := by
    rw [List.filter_cons]
    simp [not_lt.mpr h]
  refine ⟨?_, ?_, ?_, ?_, ?_⟩
  · simp [top_tickets, hf]
  · simp [all_positive_tickets, hf]
  · simp [total_entries, hf]
  · simp [total_participants, hf]
  · simp [get_tickets, List.find?_cons_of_pos]

/-- Closed instance of the invisibility theorem: a row with amount -3
changes none of the four reads and is still seen by `get_tickets`. -/
theorem nonpositive_row_invisible_witness :
    top_tickets [⟨2, -3, 0⟩, ⟨1, 5, 0⟩] 5 = top_tickets [⟨1, 5, 0⟩] 5 ∧
    all_positive_tickets [⟨2, -3, 0⟩, ⟨1, 5, 0⟩] = all_positive_tickets [⟨1, 5, 0⟩] ∧
    total_entries [⟨2, -3, 0⟩, ⟨1, 5, 0⟩] = total_entries [⟨1, 5, 0⟩] ∧
    total_participants [⟨2, -3, 0⟩, ⟨1, 5, 0⟩] = total_participants [⟨1, 5, 0⟩] ∧
    get_tickets [⟨2, -3, 0⟩, ⟨1, 5, 0⟩] 2 = -3 :=
  nonpositive_row_invisible [⟨1, 5, 0⟩] 5 ⟨2, -3, 0⟩ (by decide)

/-- First-occurrence deduplication never reorders: its output is a
sublist of its input. -/
theorem dedupSeen_sublist (seen l : List Int) :
    List.Sublist (dedupSeen seen l) l := by
  induction l generalizing seen with
  | nil => exact List.Sublist.refl []
  | cons u us ih =>
    by_cases hu : u ∈ seen
    · simpa [dedupSeen, hu] using List.Sublist.cons u (ih seen)
    · simpa [dedupSeen, hu] using List.Sublist.cons₂ u (ih (u :: seen))

/-- First-occurrence deduplication keeps exactly one copy of each id not
already in the `seen` set, and none of the ids already seen. -/
theorem dedupSeen_count (seen l : List Int) (u : Int) :
    (dedupSeen seen l).count u = if u ∈ l ∧ u ∉ seen then 1 else 0 := by
  induction l generalizing seen with
  | nil => simp [dedupSeen]
  | cons a as ih =>
    by_cases ha : a ∈ seen
    · rw [show dedupSeen seen (a :: as) = dedupSeen seen as from by
        simp [dedupSeen, ha]]
      rw [ih seen]
      by_cases hu : u = a
      · subst hu
        simp [ha]
      · simp [hu]
    · rw [show dedupSeen seen (a :: as) = a :: dedupSeen (a :: seen) as from by
        simp [dedupSeen, ha]]
      rw [List.count_cons, ih (a :: seen)]
      by_cases hu : u = a
      · subst hu
        simp [ha]
      · simp [hu, Ne.symm hu]

/-- With no database error, the bulk loop is exactly a left fold of
`add_tickets` over its user list. -/
theorem bulk_loop_no_err (delta : Int) (t : Nat) (s : Tickets)
    (l : List Int) (n : Nat) :
    bulk_loop delta t (fun _ => false) s l n =
      (l.foldl (fun st u => add_tickets st u delta t) s, true) := by
  induction l generalizing s n with
  | nil => simp [bulk_loop]
  | cons u us ih => simp [bulk_loop, ih]

/-- C5: a bulk give deduplicates its user list keeping first occurrences
in order and applies `add_tickets` exactly once per unique id — the
final table is the fold of one `add_tickets` call over the deduplicated
list, in which each supplied id occurs exactly once and which is an
order-preserving sublist of the input. -/
theorem give_bulk_once_per_unique (s : Tickets) (users : List Int)
    (delta : Int) (t : Nat) :
    (give_bulk s users delta t (fun _ => false)).1 =
      (dedupFirst users).foldl (fun st u => add_tickets st u delta t) s ∧
    (∀ u, (dedupFirst users).count u = if u ∈ users then 1 else 0) ∧
    List.Sublist (dedupFirst users) users := by
  refine ⟨?_, ?_, ?_⟩
  · simp [give_bulk, bulk_loop_no_err]
  · intro u
    simpa [dedupFirst] using dedupSeen_count [] users u
  · exact dedupSeen_sublist [] users

/-- Counterexample for C6 as stated: on the concrete bulk give of 5
entries to users [1, 2] whose second `add_tickets` call raises, the
handler commits the change for user 1 and aborts, but produces no
summary at all (`none`) — in particular it does not report the
successfully-processed prefix `[1]` to the caller. -/
theorem give_bulk_failure_unreported_cex :
    (give_bulk [] [1, 2] 5 0 (fun n => n == 1)).2 = none ∧
    (give_bulk [] [1, 2] 5 0 (fun n => n == 1)).1 =
      [{ user_id := 1, amount := 5, updated_at := 0 }] ∧
    (give_bulk [] [1, 2] 5 0 (fun n => n == 1)).2 ≠ some [1] := by
  decide

/-- The bulk loop stops at the first raising call: the changes of the
preceding calls persist and the loop reports failure. -/
theorem bulk_loop_first_err (delta : Int) (t : Nat) (ioErr : Nat → Bool)
    (l : List Int) (s : Tickets) (n k : Nat)
    (hk : k < l.length) (hfail : ioErr (n + k) = true)
    (hok : ∀ j, j < k → ioErr (n + j) = false) :
    bulk_loop delta t ioErr s l n =
      ((l.take k).foldl (fun st u => add_tickets st u delta t) s, false) := by
  induction l generalizing s n k with
  | nil => exact absurd hk (by simp)
  | cons u us ih =>
    cases k with
    | zero =>
      simp only [Nat.add_zero] at hfail
      simp [bulk_loop, hfail]
    | succ k' =>
      have h0 : ioErr n = false := by simpa using hok 0 (Nat.succ_pos k')
      rw [show bulk_loop delta t ioErr s (u :: us) n =
          bulk_loop delta t ioErr (add_tickets s u delta t) us (n + 1) from by
        simp [bulk_loop, h0]]
      rw [ih (add_tickets s u delta t) (n + 1) k'
        (by simpa using Nat.lt_of_succ_lt_succ hk)
        (by rw [show n + 1 + k' = n + (k' + 1) from by omega]; exact hfail)
        (fun j hj => by
          rw [show n + 1 + j = n + (j + 1) from by omega]
          exact hok (j + 1) (Nat.succ_lt_succ hj))]
      simp [List.take_succ_cons]

/-- C6 (amended): when the k-th `add_tickets` call of a bulk give raises
a database error (all earlier calls succeeding), the handler aborts the
remaining users, keeps the already-applied changes — the table is the
fold over the length-k prefix of the deduplicated user list — and
reports nothing to the caller: no summary, not even a partial one. -/
theorem give_bulk_abort_no_rollback (s : Tickets) (users : List Int)
    (delta : Int) (t : Nat) (ioErr : Nat → Bool) (k : Nat)
    (hk : k < (dedupFirst users).length)
    (hfail : ioErr k = true)
    (hok : ∀ j, j < k → ioErr j = false) :
    give_bulk s users delta t ioErr =
      (((dedupFirst users).take k).foldl
        (fun st u => add_tickets st u delta t) s, none) := by
  have hb := bulk_loop_first_err delta t ioErr (dedupFirst users) s 0 k hk
    (by simpa using hfail) (fun j hj => by simpa using hok j hj)
  simp [give_bulk, hb]

/-- Closed instance of the abort theorem: users [1, 2, 1, 3], failure on
the second call; only user 1's change is applied and no summary is
produced. -/
theorem give_bulk_abort_no_rollback_witness :
    give_bulk [] [1, 2, 1, 3] 7 0 (fun n => n == 1) =
      (((dedupFirst [1, 2, 1, 3]).take 1).foldl
        (fun st u => add_tickets st u 7 0) [], none) :=
  give_bulk_abort_no_rollback [] [1, 2, 1, 3] 7 0 (fun n => n == 1) 1
    (by decide) (by decide) (by decide)

/-- C9: the monthly reset zeroes every row's balance and refreshes its
`updated_at`, deleting no row and touching no other field (the table is
the field-preserving map of the old one); afterwards `get_tickets`
returns 0 for every identity, and — `set_all_tickets_zero` having run
before `set_last_reset` — `get_last_reset` returns exactly the
timestamp that was set, provided the meta row was initialized. -/
theorem reset_entries_spec (db : BotDb) (t1 t2 d : Nat)
    (h : db.last_reset ≠ none) :
    (reset_entries db t1 t2).tickets =
      db.tickets.map (fun r => { r with amount := 0, updated_at := t1 }) ∧
    (∀ uid, get_tickets (reset_entries db t1 t2).tickets uid = 0) ∧
    get_last_reset (reset_entries db t1 t2) d = t2 := by
  obtain ⟨v, hv⟩ := Option.ne_none_iff_exists.mp h
  refine ⟨rfl, ?_, ?_⟩
  · intro uid
    unfold reset_entries set_last_reset set_all_tickets_zero get_tickets
    rw [List.find?_map]
    cases db.tickets.find? ((fun r => r.user_id == uid) ∘
      fun r => { r with amount := 0, updated_at := t1 }) <;> simp
  · simp [reset_entries, set_last_reset, get_last_reset, ← hv]

/-- Closed instance of the reset theorem: a one-row table with balance 5
and an initialized meta row. -/
theorem reset_entries_spec_witness :
    (reset_entries ⟨[⟨1, 5, 2⟩], some 3⟩ 10 11).tickets =
      ([⟨1, 5, 2⟩] : Tickets).map (fun r => { r with amount := 0, updated_at := 10 }) ∧
    (∀ uid, get_tickets (reset_entries ⟨[⟨1, 5, 2⟩], some 3⟩ 10 11).tickets uid = 0) ∧
    get_last_reset (reset_entries ⟨[⟨1, 5, 2⟩], some 3⟩ 10 11) 99 = 11 :=
  reset_entries_spec ⟨[⟨1, 5, 2⟩], some 3⟩ 10 11 99 (by decide)

/-- C3: whenever a draw succeeds, the cosmetic reveal consists of
exactly 8 candidates, each of them an element of the same weighted
population, and the announced winner depends only on the 0th random
value drawn before the reveal: any random oracle agreeing there yields
the same winner, whatever its reveal draws produce. -/
theorem roll_winner_draw_decoupled (s : Tickets) (r r' : Nat → Nat)
    (w : Int) (rv : List Int)
    (hw : roll_winner s r = .ok (w, rv))
    (h0 : r' 0 = r 0) :
    rv.length = 8 ∧
    (∀ c ∈ rv, c ∈ population (all_positive_tickets s)) ∧
    Except.map Prod.fst (roll_winner s r') = .ok w := by
  by_cases he : (all_positive_tickets s).isEmpty
  · rw [show roll_winner s r = .error .emptyPool from by
      simp [roll_winner, he]] at hw
    exact absurd hw (by simp)
  · have hr : roll_winner s r =
        .ok ((population (all_positive_tickets s)).getD
            (r 0 % (population (all_positive_tickets s)).length) 0,
          (List.range 8).map (fun i =>
            (population (all_positive_tickets s)).getD
              (r (i + 1) % (population (all_positive_tickets s)).length) 0)) := by
      simp [roll_winner, he]
    have hr' : roll_winner s r' =
        .ok ((population (all_positive_tickets s)).getD
            (r' 0 % (population (all_positive_tickets s)).length) 0,
          (List.range 8).map (fun i =>
            (population (all_positive_tickets s)).getD
              (r' (i + 1) % (population (all_positive_tickets s)).length) 0)) := by
      simp [roll_winner, he]
    rw [hr] at hw
    obtain ⟨hw1, hw2⟩ : w = (population (all_positive_tickets s)).getD
          (r 0 % (population (all_positive_tickets s)).length) 0 ∧
        rv = (List.range 8).map (fun i =>
          (population (all_positive_tickets s)).getD
            (r (i + 1) % (population (all_positive_tickets s)).length) 0) := by
      have := hw.symm
      simpa using this
    have hpop : population (all_positive_tickets s) ≠ [] := by
      intro hnil
      rcases hne : all_positive_tickets s with _ | ⟨p, ps⟩
      · exact he (by simp [hne])
      · have hp2 : 0 < p.2 := mem_all_positive_pos s p (by rw [hne]; exact List.mem_cons_self p ps)
        have : population (p :: ps) = List.replicate p.2.toNat p.1 ++ population ps := by
          simp [population]
        rw [hne, this] at hnil
        have h1 : 1 ≤ p.2.toNat := by omega
        have := List.append_eq_nil.mp hnil
        rw [List.replicate_eq_nil_iff] at this
        omega
    have hlen : 0 < (population (all_positive_tickets s)).length :=
      List.length_pos_of_ne_nil hpop
    refine ⟨by simp [hw2], ?_, ?_⟩
    · intro c hc
      rw [hw2] at hc
      obtain ⟨i, _, rfl⟩ := List.mem_map.mp hc
      rw [List.getD_eq_getElem _ _ (Nat.mod_lt _ hlen)]
      exact List.getElem_mem _
    · rw [hr', hw1, h0]
      rfl

/-- Closed instance of the decoupling theorem: one member with 2
entries; the oracle `fun n => n * 5` agrees with `fun _ => 0` at
position 0 but differs on every reveal draw, and the winner is the
same. -/
theorem roll_winner_draw_decoupled_witness :
    ([1, 1, 1, 1, 1, 1, 1, 1] : List Int).length = 8 ∧
    (∀ c ∈ ([1, 1, 1, 1, 1, 1, 1, 1] : List Int),
      c ∈ population (all_positive_tickets [⟨1, 2, 0⟩])) ∧
    Except.map Prod.fst (roll_winner [⟨1, 2, 0⟩] (fun n => n * 5)) = .ok 1 :=
  roll_winner_draw_decoupled [⟨1, 2, 0⟩] (fun _ => 0) (fun n => n * 5) 1
    [1, 1, 1, 1, 1, 1, 1, 1] (by rfl) (by rfl)

/-- Unfolding of `all_positive_tickets` over a cons cell. -/
theorem all_positive_cons (r : LedgerRow) (tl : Tickets) :
    all_positive_tickets (r :: tl) =
      if 0 < r.amount then (r.user_id, r.amount) :: all_positive_tickets tl
      else all_positive_tickets tl := by
  unfold all_positive_tickets
  rw [List.filter_cons]
  by_cases hp : 0 < r.amount <;> simp [hp]

/-- Unfolding of `total_entries` over a cons cell. -/
theorem total_entries_cons (r : LedgerRow) (tl : Tickets) :
    total_entries (r :: tl) =
      if 0 < r.amount then r.amount + total_entries tl else total_entries tl := by
  unfold total_entries
  rw [List.filter_cons]
  by_cases hp : 0 < r.amount
  · rw [if_pos hp, if_pos (by simpa using hp), List.foldl_cons,
      foldl_add_amount, foldl_add_amount]
    ring
  · rw [if_neg hp, if_neg (by simpa using hp)]

/-- Unfolding of `get_tickets` over a cons cell. -/
theorem get_tickets_cons (r : LedgerRow) (tl : Tickets) (uid : Int) :
    get_tickets (r :: tl) uid =
      if r.user_id = uid then r.amount else get_tickets tl uid := by
  unfold get_tickets
  by_cases hq : r.user_id = uid
  · rw [List.find?_cons_of_pos _ (by simpa using hq), if_pos hq]
  · rw [List.find?_cons_of_neg _ (by simpa using hq), if_neg hq]

/-- Unfolding of `population` over a cons cell. -/
theorem population_cons (p : Int × Int) (ps : List (Int × Int)) :
    population (p :: ps) = List.replicate p.2.toNat p.1 ++ population ps := by
  simp [population]

/-- An identity keyed by none of the rows never occurs in the weighted
population. -/
theorem population_count_zero_of_not_key (s : Tickets) (uid : Int)
    (h : ∀ r ∈ s, r.user_id ≠ uid) :
    (population (all_positive_tickets s)).count uid = 0 := by
  induction s with
  | nil => simp [population, all_positive_tickets]
  | cons r tl ih =>
    have hr : r.user_id ≠ uid := h r (List.mem_cons_self r tl)
    have htl : ∀ x ∈ tl, x.user_id ≠ uid := fun x hx => h x (List.mem_cons_of_mem r hx)
    rw [all_positive_cons]
    by_cases hp : 0 < r.amount
    · rw [if_pos hp, population_cons, List.count_append, List.count_replicate,
        if_neg (by simpa using hr), ih htl]
    · rw [if_neg hp]
      exact ih htl

/-- C2: under the primary-key discipline, every identity occurs in the
weighted draw population exactly its stored balance many times (clamped
at 0), and the population size is the pool total — so a uniform pick of
a population index selects each identity with probability
balance / total. -/
theorem population_matches_balances (s : Tickets) (h : keysNodup s) (uid : Int) :
    (population (all_positive_tickets s)).count uid = (get_tickets s uid).toNat ∧
    (population (all_positive_tickets s)).length = (total_entries s).toNat := by
  induction s with
  | nil => simp [population, all_positive_tickets, get_tickets, total_entries]
  | cons r tl ih =>
    rw [keysNodup, List.map_cons, List.nodup_cons] at h
    obtain ⟨hnot, hnd⟩ := h
    have ihc := ih hnd
    have hkey : ∀ x ∈ tl, x.user_id ≠ r.user_id := by
      intro x hx hxe
      exact hnot (hxe ▸ List.mem_map_of_mem (fun y => y.user_id) hx)
    constructor
    · rw [all_positive_cons, get_tickets_cons]
      by_cases hp : 0 < r.amount
      · rw [if_pos hp, population_cons, List.count_append, List.count_replicate]
        by_cases heq : r.user_id = uid
        · subst heq
          rw [if_pos (by simp), if_pos rfl,
            population_count_zero_of_not_key tl r.user_id hkey]
          simp
        · rw [if_neg (by simpa using heq), if_neg heq, Nat.zero_add]
          exact ihc.1
      · rw [if_neg hp]
        by_cases heq : r.user_id = uid
        · subst heq
          rw [if_pos rfl, population_count_zero_of_not_key tl r.user_id hkey,
            Int.toNat_of_nonpos (le_of_not_lt hp)]
        · rw [if_neg heq]
          exact ihc.1
    · rw [all_positive_cons, total_entries_cons]
      by_cases hp : 0 < r.amount
      · rw [if_pos hp, if_pos hp, population_cons, List.length_append,
          List.length_replicate, ihc.2,
          Int.toNat_add (le_of_lt hp) (total_entries_nonneg tl)]
      · rw [if_neg hp, if_neg hp]
        exact ihc.2

/-- Closed instance of the population theorem: balances {1 ↦ 3, 2 ↦ 0,
3 ↦ 2}; identity 1 occurs 3 times in a population of size 5. -/
theorem population_matches_balances_witness :
    (population (all_positive_tickets [⟨1, 3, 0⟩, ⟨2, 0, 0⟩, ⟨3, 2, 0⟩])).count 1 =
      (get_tickets [⟨1, 3, 0⟩, ⟨2, 0, 0⟩, ⟨3, 2, 0⟩] 1).toNat ∧
    (population (all_positive_tickets [⟨1, 3, 0⟩, ⟨2, 0, 0⟩, ⟨3, 2, 0⟩])).length =
      (total_entries [⟨1, 3, 0⟩, ⟨2, 0, 0⟩, ⟨3, 2, 0⟩]).toNat :=
  population_matches_balances [⟨1, 3, 0⟩, ⟨2, 0, 0⟩, ⟨3, 2, 0⟩]
    (by unfold keysNodup; decide) 1
